import Mathlib

set_option maxHeartbeats 1000000

/-!
Shallow embedding of `src/cppzstd.h` (namespace `Zstd`): RAII and exception
wrappers over the external zstd codec engine. Bytes are modelled as naturals,
byte buffers as lists of naturals, thrown exceptions as explicit error values,
and the engine's fixed C function surface as a record of pure functions (the
spec notes that all engine calls are logically pure given explicit inputs; the
thread-local context is scratch state and is dropped from the model).
-/

/-- Error taxonomy of the wrapper: `ZError` is the codec error carrying a
human-readable message; `ZUnknownSize` is its specialisation raised when a
frame does not declare its decompressed size. -/
inductive ZErr where
  | ZError (msg : String)
  | ZUnknownSize (msg : String)
deriving Repr, DecidableEq

/-- Sentinel value `ZSTD_CONTENTSIZE_UNKNOWN`, i.e. `(unsigned long long)(-1)`:
the frame does not declare its decompressed size. -/
def CONTENTSIZE_UNKNOWN : Nat := 2 ^ 64 - 1

/-- Sentinel value `ZSTD_CONTENTSIZE_ERROR`, i.e. `(unsigned long long)(-2)`:
the frame metadata is invalid. -/
def CONTENTSIZE_ERROR : Nat := 2 ^ 64 - 2

/-- The fixed C function surface the wrapper requires from the external codec
engine. Fallible engine calls return `Except code output`: `.error code`
stands for a `size_t` return value for which `ZSTD_isError` / `ZDICT_isError`
holds, and `.ok out` stands for a successful call that wrote the bytes `out`
into the destination buffer and returned `out.length`. -/
structure Engine where
  /-- `ZSTD_compressBound(srcSize)`. -/
  compressBound : Nat → Nat
  /-- `ZSTD_compressCCtx(ctx, dst, dstCapacity, src, srcSize, level)`;
  arguments are destination capacity, source bytes, compression level. -/
  compressCCtx : Nat → List Nat → Int → Except Nat (List Nat)
  /-- `ZSTD_decompressDCtx(ctx, dst, dstCapacity, src, srcSize)`. -/
  decompressDCtx : Nat → List Nat → Except Nat (List Nat)
  /-- `ZSTD_getFrameContentSize(src, srcSize)`: a `u64` that is either the
  declared content size or one of the two sentinels. -/
  getFrameContentSize : List Nat → Nat
  /-- `ZSTD_getErrorName(code)`. -/
  getErrorName : Nat → String
  /-- `ZDICT_getErrorName(code)`. -/
  dictGetErrorName : Nat → String
  /-- `ZDICT_trainFromBuffer(dictBuffer, dictBufferCapacity, samplesBuffer,
  samplesSizes, nbSamples)`; arguments are dictionary-buffer capacity, the
  concatenated sample corpus, the per-sample size list and the sample count;
  `.ok dict` stands for a success that wrote the dictionary bytes `dict`. -/
  trainFromBuffer : Nat → List Nat → List Nat → Nat → Except Nat (List Nat)

/-- `std::vector<char>::resize(n)`: keep the leading `n` elements, value
initialise (zero) any newly added elements. -/
def resize (v : List Nat) (n : Nat) : List Nat :=
  v.take n ++ List.replicate (n - v.length) 0

/-- An engine call that writes `out` into a destination buffer `buf` replaces
the leading `out.length` bytes of `buf` (clamped to the buffer) and leaves the
rest of the buffer unchanged. -/
def writeInto (buf out : List Nat) : List Nat :=
  out.take buf.length ++ buf.drop out.length

theorem resize_length (v : List Nat) (n : Nat) : (resize v n).length = n := by
  simp [resize]
  omega

theorem writeInto_length (buf out : List Nat) :
    (writeInto buf out).length = buf.length := by
  simp [writeInto]
  omega

theorem resize_writeInto (buf out : List Nat) (h : out.length ≤ buf.length) :
    resize (writeInto buf out) out.length = out := by
  have hl : (writeInto buf out).length = buf.length := writeInto_length buf out
  unfold resize
  rw [hl, Nat.sub_eq_zero_of_le h]
  simp only [List.replicate, List.append_nil]
  unfold writeInto
  rw [List.take_of_length_le h]
  exact List.take_left out (buf.drop out.length)

/-- `Compress::compressbound(srcSize)`. -/
def Compress.compressbound (e : Engine) (srcSize : Nat) : Nat :=
  e.compressBound srcSize

/-- The buffer-managing overload
`Compress::compress(std::vector<char>& dst, const void* src, size_t srcSize,
int compressionLevel)`: resize `dst` to `compressbound(srcSize)`, call
`ZSTD_compressCCtx` with capacity `dst.size()`, throw `ZError` on an engine
error, otherwise resize `dst` down to the returned byte count. The result is
the final state of `dst` paired with the thrown exception, if any. -/
def Compress.compress (e : Engine) (dst : List Nat) (src : List Nat)
    (compressionLevel : Int) : List Nat × Option ZErr :=
  let dst1 := resize dst (Compress.compressbound e src.length)
  match e.compressCCtx dst1.length src compressionLevel with
  | .error code =>
      (dst1, some (ZErr.ZError ("compress error: " ++ e.getErrorName code)))
  | .ok out => (resize (writeInto dst1 out) out.length, none)

/-- The caller-supplied-destination overload
`Compress::compress(void* dst, size_t dstCapacity, const void* src,
size_t srcSize, int compressionLevel)`: call `ZSTD_compressCCtx` on the
caller's buffer, throw `ZError` on an engine error, otherwise return the
written length. `.ok out` carries the bytes the engine wrote into the leading
part of the caller's destination; its length is the returned `size_t`. -/
def Compress.compressRaw (e : Engine) (dstCapacity : Nat) (src : List Nat)
    (compressionLevel : Int) : Except ZErr (List Nat) :=
  match e.compressCCtx dstCapacity src compressionLevel with
  | .error code =>
      .error (ZErr.ZError ("compress error: " ++ e.getErrorName code))
  | .ok out => .ok out

/-- `Decompress::decompress(void* dst, size_t dstCapacity, const void* src,
size_t srcSize)`: one-shot decompress into a caller-sized destination; the
source's error message says "compress error" verbatim. -/
def Decompress.decompress (e : Engine) (dstCapacity : Nat) (src : List Nat) :
    Except ZErr (List Nat) :=
  match e.decompressDCtx dstCapacity src with
  | .error code =>
      .error (ZErr.ZError ("compress error: " ++ e.getErrorName code))
  | .ok out => .ok out

/-- `Decompress::frameContentSize(src, srcSize)`: query the engine, throw
`ZUnknownSize` on the unknown-size sentinel, `ZError` on the error sentinel,
and return the declared size otherwise. -/
def Decompress.frameContentSize (e : Engine) (src : List Nat) :
    Except ZErr Nat :=
  let size := e.getFrameContentSize src
  if size = CONTENTSIZE_UNKNOWN then .error (ZErr.ZUnknownSize "unknown size")
  else if size = CONTENTSIZE_ERROR then .error (ZErr.ZError "cannot determine size")
  else .ok size

/-- `TrainData` holds only its dictionary buffer `mDictBuffer`. -/
structure TrainDataT where
  mDictBuffer : List Nat

/-- `TrainData::TrainData(std::size_t size)`: allocate a byte buffer of `size`
bytes (`std::vector<char> mDictBuffer(size)` value-initialises to zero). -/
def TrainData.init (size : Nat) : TrainDataT :=
  ⟨List.replicate size 0⟩

/-- The default-argument construction `TrainData()` with
`size = 100*1024*1024` (100 MiB). -/
def TrainData.initDefault : TrainDataT :=
  TrainData.init (100 * 1024 * 1024)

/-- `TrainData::size()`. -/
def TrainDataT.size (t : TrainDataT) : Nat := t.mDictBuffer.length

/-- `TrainData::train(samples)`: build the size list
`std::vector<std::size_t> sizes(samples.size(), sizeof(SampleType))`, call
`ZDICT_trainFromBuffer` on the whole buffer with the whole sample corpus,
throw `ZError` whose message appends `ZDICT_getErrorName` when the engine
reports a training failure (the source's message keeps a literal "\x7b\x7d"
placeholder), and otherwise leave the engine's dictionary bytes written into
the buffer. `sampleSize` stands for `sizeof(SampleType)` and each sample is a
fixed-size record of that many bytes. -/
def TrainDataT.train (e : Engine) (t : TrainDataT) (sampleSize : Nat)
    (samples : List (List Nat)) : TrainDataT × Option ZErr :=
  let sizes := List.replicate samples.length sampleSize
  match e.trainFromBuffer t.size samples.flatten sizes samples.length with
  | .error code =>
      (t, some (ZErr.ZError ("train error: \x7b\x7d" ++ e.dictGetErrorName code)))
  | .ok dict => (⟨writeInto t.mDictBuffer dict⟩, none)

/-- A sequence of `train` calls applied in order to a `TrainData`, keeping the
buffer state each call leaves behind (exceptions discarded). -/
def TrainDataT.applyTrains (e : Engine) (t : TrainDataT)
    (reqs : List (Nat × List (List Nat))) : TrainDataT :=
  reqs.foldl (fun acc r => (TrainDataT.train e acc r.1 r.2).1) t

theorem train_fst_size (e : Engine) (t : TrainDataT) (sampleSize : Nat)
    (samples : List (List Nat)) :
    ((TrainDataT.train e t sampleSize samples).1).size = t.size := by
  unfold TrainDataT.train TrainDataT.size
  cases h : e.trainFromBuffer t.mDictBuffer.length samples.flatten
      (List.replicate samples.length sampleSize) samples.length with
  | error c => simp [h]
  | ok d => simp [h, writeInto_length]

theorem applyTrains_size (e : Engine) (reqs : List (Nat × List (List Nat))) :
    ∀ t : TrainDataT, (TrainDataT.applyTrains e t reqs).size = t.size := by
  induction reqs with
  | nil => intro t; rfl
  | cons r rs ih =>
      intro t
      unfold TrainDataT.applyTrains at ih ⊢
      rw [List.foldl_cons, ih, train_fst_size]

/-- `CDict` holds the raw engine handle `mDict` (`ZSTD_CDict*`); handles are
modelled as naturals. -/
structure CDict where
  mDict : Nat

/-- `CDict(CDict&&) = default`: the compiler-generated move constructor of a
class whose only member is a raw pointer copies the pointer and leaves the
moved-from object's pointer unchanged. The result is (newly constructed
object, moved-from object). -/
def CDict.moveCtor (src : CDict) : CDict × CDict :=
  (⟨src.mDict⟩, ⟨src.mDict⟩)

/-- `~CDict()` calls `ZSTD_freeCDict(mDict)` unconditionally: destruction
emits one release event for the stored handle. -/
def CDict.dtor (o : CDict) : List Nat := [o.mDict]

/-- `DDict` holds the raw engine handle `mDict` (`ZSTD_DDict*`). -/
structure DDict where
  mDict : Nat

/-- `DDict(DDict&&) = default`: same defaulted move as `CDict`. -/
def DDict.moveCtor (src : DDict) : DDict × DDict :=
  (⟨src.mDict⟩, ⟨src.mDict⟩)

/-- `~DDict()` calls `ZSTD_freeDDict(mDict)` unconditionally. -/
def DDict.dtor (o : DDict) : List Nat := [o.mDict]

/-- The release events of the scenario `CDict a{..h..}; CDict b(std::move(a));`
followed by the destruction of both objects. -/
def cdictMoveFrees (h : Nat) : List Nat :=
  let a : CDict := ⟨h⟩
  let p := CDict.moveCtor a
  CDict.dtor p.1 ++ CDict.dtor p.2

/-- The release events of the same scenario for `DDict`. -/
def ddictMoveFrees (h : Nat) : List Nat :=
  let a : DDict := ⟨h⟩
  let p := DDict.moveCtor a
  DDict.dtor p.1 ++ DDict.dtor p.2

/-- Engine contract (zstd documented behaviour): a successful one-shot
compress writes at most `dstCapacity` bytes. -/
def Engine.Fits (e : Engine) : Prop :=
  ∀ cap src lvl out, e.compressCCtx cap src lvl = .ok out → out.length ≤ cap

/-- Engine contract (zstd documented behaviour): decompressing the frame a
successful compress produced, into any destination of capacity at least the
original length, returns exactly the original bytes. -/
def Engine.RoundTrips (e : Engine) : Prop :=
  ∀ cap src lvl out, e.compressCCtx cap src lvl = .ok out →
    ∀ dcap, src.length ≤ dcap → e.decompressDCtx dcap out = .ok src

/-- Engine contract (zstd documented behaviour): when the frame a successful
compress produced declares a content size, that size is the source length. -/
def Engine.SizeTruthful (e : Engine) : Prop :=
  ∀ cap src lvl out, e.compressCCtx cap src lvl = .ok out →
    e.getFrameContentSize out ≠ CONTENTSIZE_UNKNOWN →
    e.getFrameContentSize out ≠ CONTENTSIZE_ERROR →
    e.getFrameContentSize out = src.length

/-- Engine contract (zstd documented behaviour): the outcome of a one-shot
compress does not depend on the destination capacity once that capacity is at
least `compressBound` of the source length. -/
def Engine.CapIndep (e : Engine) : Prop :=
  ∀ src lvl cap₁ cap₂, e.compressBound src.length ≤ cap₁ →
    e.compressBound src.length ≤ cap₂ →
    e.compressCCtx cap₁ src lvl = e.compressCCtx cap₂ src lvl

/-- A frame of the concrete model engine: the source length followed by the
source bytes. -/
def encodeFrame (src : List Nat) : List Nat := src.length :: src

/-- A concrete executable engine satisfying the zstd contracts, used to
evaluate the wrapper on closed inputs: levels 1..22 are valid, a frame is the
length-prefixed source, training needs a corpus of at least 8 bytes. -/
def modelEngine : Engine where
  compressBound n := n + 1
  compressCCtx cap src lvl :=
    if lvl < 1 ∨ 22 < lvl then .error 42
    else if src.length + 1 ≤ cap then .ok (encodeFrame src) else .error 70
  decompressDCtx cap src :=
    match src with
    | [] => .error 10
    | n :: rest =>
        if rest.length = n then
          (if n ≤ cap then .ok rest else .error 70)
        else .error 10
  getFrameContentSize src :=
    match src with
    | [] => CONTENTSIZE_ERROR
    | n :: rest => if rest.length = n then n else CONTENTSIZE_ERROR
  getErrorName _ := "GENERIC"
  dictGetErrorName _ := "GENERIC"
  trainFromBuffer cap corpus _ _ :=
    if corpus.length < 8 then .error 1 else .ok (corpus.take cap)

theorem modelEngine_compress_ok (cap : Nat) (src : List Nat) (lvl : Int)
    (out : List Nat) (h : modelEngine.compressCCtx cap src lvl = .ok out) :
    out = encodeFrame src ∧ src.length + 1 ≤ cap := by
  unfold modelEngine at h
  dsimp only at h
  by_cases h1 : lvl < 1 ∨ 22 < lvl
  · rw [if_pos h1] at h
    exact Except.noConfusion h
  · rw [if_neg h1] at h
    by_cases h2 : src.length + 1 ≤ cap
    · rw [if_pos h2] at h
      injection h with h3
      exact ⟨h3.symm, h2⟩
    · rw [if_neg h2] at h
      exact Except.noConfusion h

theorem modelEngine_fits : modelEngine.Fits := by
  intro cap src lvl out h
  obtain ⟨ho, hc⟩ := modelEngine_compress_ok cap src lvl out h
  subst ho
  simpa [encodeFrame] using hc

theorem modelEngine_roundTrips : modelEngine.RoundTrips := by
  intro cap src lvl out h dcap hdcap
  obtain ⟨ho, -⟩ := modelEngine_compress_ok cap src lvl out h
  subst ho
  simp [modelEngine, encodeFrame, hdcap]

theorem modelEngine_sizeTruthful : modelEngine.SizeTruthful := by
  intro cap src lvl out h _ _
  obtain ⟨ho, -⟩ := modelEngine_compress_ok cap src lvl out h
  subst ho
  simp [modelEngine, encodeFrame]

theorem modelEngine_capIndep : modelEngine.CapIndep := by
  intro src lvl cap₁ cap₂ h₁ h₂
  unfold modelEngine at h₁ h₂ ⊢
  dsimp only at h₁ h₂ ⊢
  by_cases hl : lvl < 1 ∨ 22 < lvl
  · simp [hl]
  · simp [hl, h₁, h₂]

/-- Claim C4: `frameContentSize` throws `ZUnknownSize` exactly when the engine
reports the unknown-size sentinel (the frame does not declare its decompressed
size), throws the plain `ZError` exactly when the engine reports the
invalid-metadata sentinel, and otherwise returns the size declared in the
frame; the two failure kinds are never confused. -/
theorem frameContentSize_error_taxonomy (e : Engine) (src : List Nat) :
    (Decompress.frameContentSize e src =
        .error (ZErr.ZUnknownSize "unknown size") ↔
      e.getFrameContentSize src = CONTENTSIZE_UNKNOWN)
  ∧ (Decompress.frameContentSize e src =
        .error (ZErr.ZError "cannot determine size") ↔
      e.getFrameContentSize src = CONTENTSIZE_ERROR)
  ∧ (∀ n, Decompress.frameContentSize e src = .ok n ↔
      e.getFrameContentSize src = n ∧ n ≠ CONTENTSIZE_UNKNOWN ∧
        n ≠ CONTENTSIZE_ERROR) := by
  have hUE : CONTENTSIZE_UNKNOWN ≠ CONTENTSIZE_ERROR := by decide
  unfold Decompress.frameContentSize
  dsimp only
  by_cases h1 : e.getFrameContentSize src = CONTENTSIZE_UNKNOWN
  · rw [if_pos h1]
    refine ⟨⟨fun _ => h1, fun _ => rfl⟩, ⟨fun h => ?_, fun h => ?_⟩,
      fun n => ⟨fun h => ?_, fun h => ?_⟩⟩
    · exact absurd h (by simp)
    · exact absurd (h1.symm.trans h) hUE
    · exact Except.noConfusion h
    · exact absurd (h.1.symm.trans h1) h.2.1
  · rw [if_neg h1]
    by_cases h2 : e.getFrameContentSize src = CONTENTSIZE_ERROR
    · rw [if_pos h2]
      refine ⟨⟨fun h => ?_, fun h => ?_⟩, ⟨fun _ => h2, fun _ => rfl⟩,
        fun n => ⟨fun h => ?_, fun h => ?_⟩⟩
      · exact absurd h (by simp)
      · exact absurd h h1
      · exact Except.noConfusion h
      · exact absurd (h.1.symm.trans h2) h.2.2
    · rw [if_neg h2]
      refine ⟨⟨fun h => ?_, fun h => ?_⟩, ⟨fun h => ?_, fun h => ?_⟩,
        fun n => ⟨fun h => ?_, fun h => ?_⟩⟩
      · exact Except.noConfusion h
      · exact absurd h h1
      · exact Except.noConfusion h
      · exact absurd h h2
      · have h3 : e.getFrameContentSize src = n := by injection h
        exact ⟨h3, fun hn => h1 (h3.trans hn), fun hn => h2 (h3.trans hn)⟩
      · rw [h.1]

/-- Claim C5: the code does NOT release the engine dictionary handle exactly
once when a `CDict` or `DDict` has been moved from. The defaulted move
constructor copies the raw handle without clearing the source, so destroying
both the new and the moved-from object emits two release events for the same
handle (a double free), not one. -/
theorem dict_handle_freed_twice_after_move :
    (cdictMoveFrees 7).count 7 = 2 ∧ (ddictMoveFrees 5).count 5 = 2 ∧
      (2 : Nat) ≠ 1 := by
  decide

/-- Claim C7: a `TrainData` constructed with capacity `c` (default
`100*1024*1024` bytes) reports `size() = c` both before and after any number
of `train` calls, successful or failing: the buffer's size is fixed at
construction and never changed by training. -/
theorem trainData_size_invariant (e : Engine) (c : Nat)
    (reqs : List (Nat × List (List Nat))) :
    (TrainData.init c).size = c
  ∧ TrainData.initDefault.size = 100 * 1024 * 1024
  ∧ (TrainDataT.applyTrains e (TrainData.init c) reqs).size = c := by
  refine ⟨?_, ?_, ?_⟩
  · show (List.replicate c 0).length = c
    exact List.length_replicate c 0
  · show (List.replicate (100 * 1024 * 1024) 0).length = 100 * 1024 * 1024
    exact List.length_replicate (100 * 1024 * 1024) 0
  · rw [applyTrains_size]
    show (List.replicate c 0).length = c
    exact List.length_replicate c 0

/-- Claim C1: for every payload `P` and level `L`, when the buffer-managing
one-shot compress succeeds with output `out`, decompressing `out` into a
destination of sufficient capacity yields exactly `P`; the engine is assumed
to satisfy its documented contracts (successful output fits the destination,
and engine-level decompress inverts engine-level compress). -/
theorem compress_decompress_roundtrip (e : Engine)
    (hrt : e.RoundTrips) (hfits : e.Fits)
    (P dst0 out : List Nat) (L : Int) (dcap : Nat)
    (hc : Compress.compress e dst0 P L = (out, none))
    (hcap : P.length ≤ dcap) :
    Decompress.decompress e dcap out = .ok P := by
  unfold Compress.compress at hc
  dsimp only at hc
  set dst1 := resize dst0 (Compress.compressbound e P.length) with hdst1
  cases hcc : e.compressCCtx dst1.length P L with
  | error c =>
      rw [hcc] at hc
      simp at hc
  | ok o =>
      rw [hcc] at hc
      have hfit : o.length ≤ dst1.length := hfits _ _ _ _ hcc
      have hout : out = o := by
        have h := congrArg Prod.fst hc
        dsimp at h
        rw [← h, resize_writeInto _ _ hfit]
      subst hout
      have hd := hrt _ _ _ _ hcc dcap hcap
      unfold Decompress.decompress
      rw [hd]

/-- Witness for C1 on the concrete model engine: compressing `[9]` at level 3
yields `[1, 9]`, and decompressing it into a destination of capacity 1
returns `[9]`. -/
theorem compress_decompress_roundtrip_witness :
    Decompress.decompress modelEngine 1 [1, 9] = .ok [9] :=
  compress_decompress_roundtrip modelEngine modelEngine_roundTrips
    modelEngine_fits [9] [] [1, 9] 3 1 rfl (by decide)

/-- Claim C2: the length of the buffer returned by a successful
buffer-managing compress is at most `compressbound` of the source length; the
engine is assumed to satisfy its documented contract that a successful
compress writes at most the destination capacity. -/
theorem compress_length_le_bound (e : Engine) (hfits : e.Fits)
    (P dst0 out : List Nat) (L : Int)
    (hc : Compress.compress e dst0 P L = (out, none)) :
    out.length ≤ Compress.compressbound e P.length := by
  unfold Compress.compress at hc
  dsimp only at hc
  set dst1 := resize dst0 (Compress.compressbound e P.length) with hdst1
  cases hcc : e.compressCCtx dst1.length P L with
  | error c =>
      rw [hcc] at hc
      simp at hc
  | ok o =>
      rw [hcc] at hc
      have h := congrArg Prod.fst hc
      dsimp at h
      have hfit : o.length ≤ dst1.length := hfits _ _ _ _ hcc
      rw [← h, resize_length]
      calc o.length ≤ dst1.length := hfit
        _ = Compress.compressbound e P.length := by rw [hdst1, resize_length]

/-- Witness for C2 on the concrete model engine: the two-byte output of
compressing the one-byte payload `[9]` is within `compressbound 1 = 2`. -/
theorem compress_length_le_bound_witness :
    ([1, 9] : List Nat).length ≤
      Compress.compressbound modelEngine ([9] : List Nat).length :=
  compress_length_le_bound modelEngine modelEngine_fits [9] [] [1, 9] 3 rfl

/-- Claim C3: the buffer-managing compress overload first resizes the
destination to `compressbound(srcSize)`, then invokes the engine's
context-based one-shot compress at that capacity and level, and on success
resizes the destination down to exactly the byte count the engine reported
writing (which is the written bytes themselves whenever that count is within
the bound); on an engine error it throws and leaves the destination at the
bound size. -/
theorem compress_vector_overload_spec (e : Engine) (dst src : List Nat)
    (L : Int) :
    (∀ c, e.compressCCtx (Compress.compressbound e src.length) src L =
          .error c →
        Compress.compress e dst src L =
          (resize dst (Compress.compressbound e src.length),
           some (ZErr.ZError ("compress error: " ++ e.getErrorName c))))
  ∧ (∀ o, e.compressCCtx (Compress.compressbound e src.length) src L =
          .ok o →
        (Compress.compress e dst src L).2 = none
        ∧ ((Compress.compress e dst src L).1).length = o.length
        ∧ (o.length ≤ Compress.compressbound e src.length →
            (Compress.compress e dst src L).1 = o)) := by
  have hlen : (resize dst (Compress.compressbound e src.length)).length =
      Compress.compressbound e src.length := resize_length _ _
  constructor
  · intro c hcc
    unfold Compress.compress
    dsimp only
    rw [hlen, hcc]
  · intro o hcc
    unfold Compress.compress
    dsimp only
    rw [hlen, hcc]
    refine ⟨rfl, resize_length _ _, fun hfit => ?_⟩
    exact resize_writeInto _ _ (by rw [hlen]; exact hfit)

/-- Witness for C3 on the concrete model engine: compressing `[9]` at level 3
into a vector previously holding `[7, 7, 7]` succeeds, and the vector ends up
holding exactly the two engine-written bytes `[1, 9]`. -/
theorem compress_vector_overload_spec_witness :
    (Compress.compress modelEngine [7, 7, 7] [9] 3).2 = none
  ∧ ((Compress.compress modelEngine [7, 7, 7] [9] 3).1).length = 2
  ∧ (Compress.compress modelEngine [7, 7, 7] [9] 3).1 = [1, 9] := by
  have h := (compress_vector_overload_spec modelEngine [7, 7, 7] [9] 3).2
    [1, 9] rfl
  exact ⟨h.1, h.2.1, h.2.2 (by decide)⟩

/-- Claim C9: when the buffer-managing compress overload fails with a codec
error, the destination vector is not restored: the exception propagates and
the vector is left resized to `compressbound(srcSize)`. -/
theorem compress_failure_leaves_resized (e : Engine) (dst0 src : List Nat)
    (L : Int) (c : Nat)
    (herr : e.compressCCtx (Compress.compressbound e src.length) src L =
      .error c) :
    (Compress.compress e dst0 src L).2 =
        some (ZErr.ZError ("compress error: " ++ e.getErrorName c))
    ∧ ((Compress.compress e dst0 src L).1).length =
        Compress.compressbound e src.length := by
  unfold Compress.compress
  dsimp only
  rw [resize_length dst0 (Compress.compressbound e src.length), herr]
  exact ⟨rfl, resize_length _ _⟩

/-- Witness for C9 on the concrete model engine: level 0 is rejected by the
engine, and the wrapper leaves the vector resized to the bound (here 2) while
the exception carries the engine's error name. -/
theorem compress_failure_leaves_resized_witness :
    (Compress.compress modelEngine [7] [9] 0).2 =
        some (ZErr.ZError ("compress error: " ++ modelEngine.getErrorName 42))
    ∧ ((Compress.compress modelEngine [7] [9] 0).1).length =
        Compress.compressbound modelEngine ([9] : List Nat).length :=
  compress_failure_leaves_resized modelEngine [7] [9] 0 42 rfl

/-- Collapse the buffer-managing overload's result (final vector, thrown
exception) into the exception-or-value shape of the caller-supplied overload,
for comparing the two. -/
def toExceptVec : List Nat × Option ZErr → Except ZErr (List Nat)
  | (v, none) => .ok v
  | (_, some err) => .error err

/-- Claim C10: the caller-supplied-destination compress overload and the
buffer-managing overload are equivalent: given a caller destination of
capacity at least `compressbound(srcSize)`, the caller-supplied overload
returns the same written bytes (hence the same written length) as the vector
the buffer-managing overload yields, and both throw the same `ZError` under
exactly the same engine conditions; the engine is assumed to satisfy its
documented contracts (output fits the capacity, and the outcome does not
depend on the capacity once it is at least the bound). -/
theorem compress_overloads_equivalent (e : Engine) (hfits : e.Fits)
    (hci : e.CapIndep) (dst0 src : List Nat) (L : Int) (dcap : Nat)
    (hcap : Compress.compressbound e src.length ≤ dcap) :
    Compress.compressRaw e dcap src L =
      toExceptVec (Compress.compress e dst0 src L) := by
  unfold Compress.compressRaw Compress.compress
  dsimp only
  rw [resize_length dst0 (Compress.compressbound e src.length)]
  have hcc : e.compressCCtx dcap src L =
      e.compressCCtx (Compress.compressbound e src.length) src L :=
    hci src L dcap (Compress.compressbound e src.length) hcap (le_refl _)
  rw [hcc]
  cases h : e.compressCCtx (Compress.compressbound e src.length) src L with
  | error c => rfl
  | ok o =>
      have hfit : o.length ≤
          (resize dst0 (Compress.compressbound e src.length)).length := by
        rw [resize_length]
        exact hfits _ _ _ _ h
      simp only [toExceptVec, resize_writeInto _ _ hfit]

/-- Witness for C10 on the concrete model engine: with a caller capacity of 5
(at least the bound 2), both overloads produce `[1, 9]` for the payload `[9]`
at level 3. -/
theorem compress_overloads_equivalent_witness :
    Compress.compressRaw modelEngine 5 [9] 3 =
      toExceptVec (Compress.compress modelEngine [] [9] 3) :=
  compress_overloads_equivalent modelEngine modelEngine_fits
    modelEngine_capIndep [] [9] 3 5 (by decide)

/-- Claim C8: when the frame produced by a successful buffer-managing
compress of `P` declares a content size, `frameContentSize` applied to that
frame returns exactly `P.length`; the engine is assumed to satisfy its
documented contracts (output fits the capacity, and a declared content size
is the source length). -/
theorem frameContentSize_of_compress (e : Engine) (hst : e.SizeTruthful)
    (hfits : e.Fits) (P dst0 out : List Nat) (L : Int)
    (hc : Compress.compress e dst0 P L = (out, none))
    (hU : e.getFrameContentSize out ≠ CONTENTSIZE_UNKNOWN)
    (hE : e.getFrameContentSize out ≠ CONTENTSIZE_ERROR) :
    Decompress.frameContentSize e out = .ok P.length := by
  unfold Compress.compress at hc
  dsimp only at hc
  set dst1 := resize dst0 (Compress.compressbound e P.length) with hdst1
  cases hcc : e.compressCCtx dst1.length P L with
  | error c =>
      rw [hcc] at hc
      simp at hc
  | ok o =>
      rw [hcc] at hc
      have hfit : o.length ≤ dst1.length := hfits _ _ _ _ hcc
      have hout : out = o := by
        have h := congrArg Prod.fst hc
        dsimp at h
        rw [← h, resize_writeInto _ _ hfit]
      subst hout
      have hsz := hst _ _ _ _ hcc hU hE
      unfold Decompress.frameContentSize
      dsimp only
      rw [if_neg hU, if_neg hE, hsz]

/-- Witness for C8 on the concrete model engine: the frame `[1, 9]` produced
by compressing `[9]` declares content size 1, and `frameContentSize` returns
it. -/
theorem frameContentSize_of_compress_witness :
    Decompress.frameContentSize modelEngine [1, 9] = .ok 1 :=
  frameContentSize_of_compress modelEngine modelEngine_sizeTruthful
    modelEngine_fits [9] [] [1, 9] 3 rfl (by decide) (by decide)

/-- Claim C6: `TrainData::train` builds a size list with one entry per
sample, each entry equal to the fixed element size of the sample type, passes
the whole sample corpus to the engine's training call, and throws a `ZError`
whose message includes the engine's symbolic error name exactly when the
engine reports a training failure. -/
theorem train_spec (e : Engine) (t : TrainDataT) (sampleSize : Nat)
    (samples : List (List Nat)) :
    (List.replicate samples.length sampleSize).length = samples.length
  ∧ (∀ s, s ∈ List.replicate samples.length sampleSize → s = sampleSize)
  ∧ (∀ c, e.trainFromBuffer t.size samples.flatten
          (List.replicate samples.length sampleSize) samples.length =
          .error c →
        (TrainDataT.train e t sampleSize samples).2 =
          some (ZErr.ZError ("train error: \x7b\x7d" ++
            e.dictGetErrorName c)))
  ∧ (∀ d, e.trainFromBuffer t.size samples.flatten
          (List.replicate samples.length sampleSize) samples.length =
          .ok d →
        (TrainDataT.train e t sampleSize samples).2 = none) := by
  refine ⟨List.length_replicate _ _, fun s hs => List.eq_of_mem_replicate hs,
    fun c hcc => ?_, fun d hcc => ?_⟩
  · unfold TrainDataT.train
    dsimp only
    rw [hcc]
  · unfold TrainDataT.train
    dsimp only
    rw [hcc]

/-- Witness for C6 on the concrete model engine: a two-byte corpus is below
the engine's minimum, so training on one two-byte sample throws the `ZError`
carrying the engine's symbolic error name. -/
theorem train_spec_witness :
    (TrainDataT.train modelEngine (TrainData.init 4) 2 [[1, 2]]).2 =
      some (ZErr.ZError ("train error: \x7b\x7d" ++
        modelEngine.dictGetErrorName 1)) :=
  (train_spec modelEngine (TrainData.init 4) 2 [[1, 2]]).2.2.1 1 rfl
